import Mathlib

/-!
# Verification of `service/telegram/telegram.go`

A shallow embedding of the Telegram notification service: the recipient list
(`New`, `AddReceivers`), the fan-out `Send` and the polling `GetChatId`.

* The bot client and the context are collaborators of the package. They are
  embedded as records of functions over an explicit world state `σ`
  (state passing): every call of `client.Send` returns its error together with
  the next world state, and `ctx.Done` / `ctx.Err` are read from the current
  world state.
* The `select` of `GetChatId` blocks on two channels. Its environment is the
  list of events that the successive `select`s observe, in order: either the
  deadline channel fired, or the ticker fired and `GetUpdates` answered.
* Go's `int`, `int64` and `time.Duration` values are integers (`Int`); a
  pointer that may be nil is an `Option`; Go's `error` is `Option GoError`
  with `none` for nil.
-/

set_option linter.unusedVariables false

/-! ## Errors (`github.com/pkg/errors`) -/

/-- A non-nil Go error value: an error carrying just its text (made by
`errors.New`, or handed in by the context or by the bot client), the value
`&withMessage{cause, msg}` of `github.com/pkg/errors`, or its value
`&withStack{err, callers()}`, whose recorded call stack is left out. -/
inductive GoError where
  | leaf (text : String)
  | withMessage (cause : GoError) (msg : String)
  | withStack (err : GoError)
  deriving DecidableEq, Repr

namespace GoError

/-- The text of `err.Error()`: a `withMessage` prints its message, a colon and
the text of its cause; a `withStack` prints the text of the error it holds. -/
def Error : GoError → String
  | leaf text => text
  | withMessage cause msg => msg ++ ": " ++ Error cause
  | withStack err => Error err

/-- The method `Unwrap`: the cause of a `withMessage`, the error held by a
`withStack`; an error carrying just its text has none. -/
def Unwrap : GoError → Option GoError
  | leaf _ => none
  | withMessage cause _ => some cause
  | withStack err => some err

/-- The function `errors.Cause(err)`: the error reached by following the
`Cause` methods of `withStack` and `withMessage` as long as there is one. -/
def Cause : GoError → GoError
  | leaf text => leaf text
  | withMessage cause _ => Cause cause
  | withStack err => Cause err

end GoError

namespace errors

/-- The function `errors.New(text)`. -/
def New (text : String) : GoError := GoError.leaf text

/-- The function `errors.Wrapf(err, format, args...)`, given the already
formatted message: nil for a nil `err`, otherwise
`&withStack{&withMessage{cause: err, msg: formatted}, callers()}`. -/
def Wrapf (err : Option GoError) (formatted : String) : Option GoError :=
  match err with
  | none => none
  | some cause => some (GoError.withStack (GoError.withMessage cause formatted))

end errors

/-! ## Durations (`time`) -/

namespace time

/-- A `time.Duration` is a count of nanoseconds. -/
abbrev Duration := Int

def Nanosecond : Duration := 1
def Microsecond : Duration := 1000 * Nanosecond
def Millisecond : Duration := 1000 * Microsecond
def Second : Duration := 1000 * Millisecond

end time

/-- The Go conversion `int(x)` on a 64-bit platform: the value modulo `2^64`,
read as a signed number. -/
def goInt (x : Int) : Int := (x + 2 ^ 63) % 2 ^ 64 - 2 ^ 63

/-! ## The bot API (`tgbotapi`) -/

namespace tgbotapi

/-- The constant `tgbotapi.ModeHTML`. -/
def ModeHTML : String := "HTML"

/-- The fields of `tgbotapi.MessageConfig` that the package sets. -/
structure MessageConfig where
  ChatID : Int
  Text : String
  ParseMode : String
  deriving DecidableEq, Repr

/-- The function `tgbotapi.NewMessage(chatID, text)`: no parse mode is set. -/
def NewMessage (chatID : Int) (text : String) : MessageConfig :=
  { ChatID := chatID, Text := text, ParseMode := "" }

/-- The field of `tgbotapi.UpdateConfig` that the package sets. The bot API
reads `Timeout` as a number of seconds of long polling. -/
structure UpdateConfig where
  Timeout : Int
  deriving DecidableEq, Repr

/-- The duration that an `UpdateConfig` asks the bot API to wait:
`Timeout` seconds. -/
def UpdateConfig.wait (config : UpdateConfig) : time.Duration :=
  config.Timeout * time.Second

/-- The type `tgbotapi.User`: numeric id and user name. -/
structure User where
  ID : Int
  UserName : String
  deriving DecidableEq, Repr

/-- The type `tgbotapi.Message`: `From` is a pointer that may be nil. -/
structure Message where
  From : Option User
  deriving DecidableEq, Repr

/-- The type `tgbotapi.Update`: `Message` is a pointer that may be nil. -/
structure Update where
  Message : Option Message
  deriving DecidableEq, Repr

/-- The bot client `*tgbotapi.BotAPI` as seen by `Send`: `Send msg s` is the
error of sending `msg` in world state `s`, and the world state afterwards. -/
structure BotAPI (σ : Type) where
  Send : MessageConfig → σ → Option GoError × σ

end tgbotapi

/-! ## Contexts (`context`) -/

namespace context

/-- A `context.Context` as seen by `Send`: whether the channel `ctx.Done()` is
closed in a world state, and the value of `ctx.Err()` there. -/
structure Context (σ : Type) where
  Done : σ → Bool
  Err : σ → Option GoError

end context

/-! ## The package `telegram` -/

namespace telegram

open tgbotapi

/-- The constant `defaultParseMode`. -/
def defaultParseMode : String := ModeHTML

/-- The struct `Telegram`: the client and the chat id list. -/
structure Telegram (σ : Type) where
  client : BotAPI σ
  chatIDs : List Int

/-- The function `New`, with `tgbotapi.NewBotAPI` taken as a parameter: the
error of the bot API is passed on, otherwise the instance has the client and
an empty chat id list. -/
def New {σ : Type} (NewBotAPI : String → Except GoError (BotAPI σ))
    (apiToken : String) : Except GoError (Telegram σ) :=
  match NewBotAPI apiToken with
  | .error err => .error err
  | .ok client => .ok { client := client, chatIDs := [] }

/-- The method `AddReceivers`: `t.chatIDs = append(t.chatIDs, chatIDs...)`. -/
def AddReceivers {σ : Type} (t : Telegram σ) (chatIDs : List Int) : Telegram σ :=
  { t with chatIDs := t.chatIDs ++ chatIDs }

/-- The method `Client`. -/
def Client {σ : Type} (t : Telegram σ) : BotAPI σ := t.client

/-! ### `Send` -/

/-- What a call of `Send` did: the arguments of its `client.Send` calls in
call order, the error it returned, and the world state at its return. -/
structure SendResult (σ : Type) where
  attempts : List MessageConfig
  err : Option GoError
  final : σ

/-- The text of `fmt.Sprintf("failed to send message to Telegram chat '%d'", chatID)`. -/
def failedToSend (chatID : Int) : String :=
  "failed to send message to Telegram chat \x27" ++ toString chatID ++ "\x27"

/-- The loop `for _, chatID := range t.chatIDs` of `Send`, on the remaining
chat ids, with the current value of the variable `msg`. -/
def sendLoop {σ : Type} (ctx : context.Context σ) (client : BotAPI σ) :
    MessageConfig → List Int → σ → SendResult σ
  | _, [], s => { attempts := [], err := none, final := s }
  | msg, chatID :: rest, s =>
    if ctx.Done s then
      -- case <-ctx.Done(): return ctx.Err()
      { attempts := [], err := ctx.Err s, final := s }
    else
      -- default:
      let msg1 : MessageConfig := { msg with ChatID := chatID }
      match client.Send msg1 s with
      | (some err, s1) =>
        { attempts := [msg1], err := errors.Wrapf (some err) (failedToSend chatID), final := s1 }
      | (none, s1) =>
        let r := sendLoop ctx client msg1 rest s1
        { attempts := msg1 :: r.attempts, err := r.err, final := r.final }

/-- The method `Send`, started in world state `s`. -/
def Send {σ : Type} (t : Telegram σ) (ctx : context.Context σ) (subject message : String)
    (s : σ) : SendResult σ :=
  let fullMessage := subject ++ "\n" ++ message
  let msg := NewMessage 0 fullMessage
  let msg := { msg with ParseMode := defaultParseMode }
  sendLoop ctx t.client msg t.chatIDs s

/-! ### `GetChatId` -/

/-- What one `select` of `GetChatId` observes: the deadline channel
`interruptSignal` delivered, or the ticker delivered and the call of
`client.GetUpdates` that follows returned `fetched`. -/
inductive SelectEvent where
  | interrupt
  | tick (fetched : Except GoError (List Update))

/-- What a call of `GetChatId` did on a list of events: the arguments of its
`client.GetUpdates` calls in call order, and its return values, or `none` when
the events are used up and the loop is blocked in `select`. -/
structure ChatIdRun where
  fetches : List UpdateConfig
  returned : Option (Int × Option GoError)
  deriving DecidableEq

/-- The inner loop `for _, update := range updates` of `GetChatId`: the id it
returns, or `none` when it runs to its end. -/
def scanUpdates (username : String) : List Update → Option Int
  | [] => none
  | update :: rest =>
    match update.Message with
    | some m =>
      match m.From with
      | some sender => if sender.UserName = username then some sender.ID else scanUpdates username rest
      | none => scanUpdates username rest
    | none => scanUpdates username rest

/-- The period of the ticker of `GetChatId`: `time.Second * 2`. -/
def tickPeriod : time.Duration := time.Second * 2

/-- The argument of every `client.GetUpdates` call of `GetChatId`. -/
def updateConfig : UpdateConfig := { Timeout := goInt (time.Millisecond * 500) }

/-- The method `GetChatId` on the events its `select`s observe. The deadline
`timeout` only decides when the environment delivers `interrupt`. -/
def GetChatId (username : String) (timeout : time.Duration) : List SelectEvent → ChatIdRun
  | [] => { fetches := [], returned := none }
  | SelectEvent.interrupt :: _ =>
    { fetches := [], returned := some (-1, some (errors.New "timed out")) }
  | SelectEvent.tick fetched :: rest =>
    match fetched with
    | .error _ =>
      -- continue
      let r := GetChatId username timeout rest
      { r with fetches := updateConfig :: r.fetches }
    | .ok updates =>
      match scanUpdates username updates with
      | some id => { fetches := [updateConfig], returned := some (id, none) }
      | none =>
        let r := GetChatId username timeout rest
        { r with fetches := updateConfig :: r.fetches }

end telegram

/-! ## Notions used to state the properties -/

namespace telegram

open tgbotapi

/-- The message a send to `chatID` is expected to carry: the subject, a line
break and the body as text, with the HTML parse mode. -/
def outbound (subject message : String) (chatID : Int) : MessageConfig :=
  { ChatID := chatID, Text := subject ++ "\n" ++ message, ParseMode := "HTML" }

/-- The world state after the client has served the sends `msgs`, in order,
from the world state `s`. -/
def served {σ : Type} (client : BotAPI σ) : List MessageConfig → σ → σ
  | [], s => s
  | m :: rest, s => served client rest (client.Send m s).2

/-- Whether an update has a message with a sender whose user name is
`username`. -/
def authoredBy (username : String) (update : Update) : Bool :=
  match update.Message with
  | some m =>
    match m.From with
    | some sender => decide (sender.UserName = username)
    | none => false
  | none => false

/-- The feed of updates that the fetches deliver before the deadline is
observed: the batches of the successful fetches, in order. -/
def polled : List SelectEvent → List Update
  | [] => []
  | SelectEvent.interrupt :: _ => []
  | SelectEvent.tick (.error _) :: rest => polled rest
  | SelectEvent.tick (.ok updates) :: rest => updates ++ polled rest

/-- A failed fetch replaced by a successful fetch of an empty batch; any other
event unchanged. -/
def swallow : SelectEvent → SelectEvent
  | SelectEvent.interrupt => SelectEvent.interrupt
  | SelectEvent.tick (.error _) => SelectEvent.tick (.ok [])
  | SelectEvent.tick (.ok updates) => SelectEvent.tick (.ok updates)

/-! ## Concrete worlds

The world state is the number of sends the client has served so far. -/

/-- A client whose send number `n` (counted from 0) fails with the error
"blocked" when `failAt = some n`, and succeeds otherwise. -/
def countingClient (failAt : Option Nat) : BotAPI Nat :=
  { Send := fun _ n => (if failAt = some n then some (GoError.leaf "blocked") else none, n + 1) }

/-- A context that is cancelled once `k` sends have been served. -/
def cancelledAfter (k : Nat) : context.Context Nat :=
  { Done := fun n => decide (k ≤ n)
    Err := fun n => if k ≤ n then some (GoError.leaf "context canceled") else none }

/-- A context that is never cancelled. -/
def background : context.Context Nat :=
  { Done := fun _ => false, Err := fun _ => none }

/-! ## Lemmas on `Send` -/

/-- The chat id held by the variable `msg` before an iteration is overwritten
by the iteration. -/
theorem sendLoop_setChatID {σ : Type} (ctx : context.Context σ) (client : BotAPI σ)
    (msg : MessageConfig) (x : Int) (ids : List Int) (s : σ) :
    sendLoop ctx client { msg with ChatID := x } ids s = sendLoop ctx client msg ids s := by
  cases ids with
  | nil => simp [sendLoop]
  | cons a rest => simp [sendLoop]

/-- While the context is not done at a check and the send that follows
succeeds, the loop goes on: after a run of such iterations over `pre` it is
the loop on the remaining ids, from the state the served sends lead to. -/
theorem sendLoop_append {σ : Type} (ctx : context.Context σ) (client : BotAPI σ)
    (msg : MessageConfig) (rest : List Int) :
    ∀ (pre : List Int) (s : σ),
      (∀ p x q, pre = p ++ x :: q →
        ctx.Done (served client (p.map fun i => { msg with ChatID := i }) s) = false ∧
        (client.Send { msg with ChatID := x }
          (served client (p.map fun i => { msg with ChatID := i }) s)).1 = none) →
      sendLoop ctx client msg (pre ++ rest) s =
        { attempts := (pre.map fun i => { msg with ChatID := i }) ++
            (sendLoop ctx client msg rest
              (served client (pre.map fun i => { msg with ChatID := i }) s)).attempts
          err := (sendLoop ctx client msg rest
              (served client (pre.map fun i => { msg with ChatID := i }) s)).err
          final := (sendLoop ctx client msg rest
              (served client (pre.map fun i => { msg with ChatID := i }) s)).final } := by
  intro pre
  induction pre with
  | nil => intro s _; simp [served]
  | cons a pre ih =>
    intro s h
    have h0 := h [] a pre rfl
    simp only [List.map_nil, served] at h0
    obtain ⟨hd, hs⟩ := h0
    have hsend : client.Send { msg with ChatID := a } s
        = (none, (client.Send { msg with ChatID := a } s).2) := by
      rw [← hs]
    have ih1 := ih (client.Send { msg with ChatID := a } s).2 (by
      intro p x q hpq
      have := h (a :: p) x q (by rw [hpq]; rfl)
      simpa [served] using this)
    rw [List.cons_append, sendLoop, hd]
    simp only [Bool.false_eq_true, if_false]
    rw [hsend]
    simp only [sendLoop_setChatID]
    rw [ih1]
    simp [served]

end telegram

namespace telegram

open tgbotapi

/-- The method `Send` is its loop started with the composed message. -/
theorem Send_eq_sendLoop {σ : Type} (t : Telegram σ) (ctx : context.Context σ)
    (subject message : String) (s : σ) :
    Send t ctx subject message s
      = sendLoop ctx t.client (outbound subject message 0) t.chatIDs s := rfl

/-- The loop of `Send` over `pre ++ rest`, when no check over `pre` finds the
context done and every send over `pre` succeeds. -/
theorem Send_append {σ : Type} (t : Telegram σ) (ctx : context.Context σ)
    (subject message : String) (s : σ) (pre rest : List Int)
    (hids : t.chatIDs = pre ++ rest)
    (h : ∀ p x q, pre = p ++ x :: q →
      ctx.Done (served t.client (p.map (outbound subject message)) s) = false ∧
      (t.client.Send (outbound subject message x)
        (served t.client (p.map (outbound subject message)) s)).1 = none) :
    Send t ctx subject message s =
      { attempts := pre.map (outbound subject message) ++
          (sendLoop ctx t.client (outbound subject message 0) rest
            (served t.client (pre.map (outbound subject message)) s)).attempts
        err := (sendLoop ctx t.client (outbound subject message 0) rest
            (served t.client (pre.map (outbound subject message)) s)).err
        final := (sendLoop ctx t.client (outbound subject message 0) rest
            (served t.client (pre.map (outbound subject message)) s)).final } := by
  rw [Send_eq_sendLoop, hids]
  exact sendLoop_append ctx t.client (outbound subject message 0) rest pre s h

/-- When the context is never done and every send succeeds, `Send` sends to
every chat id in list order and returns nil. -/
theorem Send_all {σ : Type} (t : Telegram σ) (ctx : context.Context σ)
    (subject message : String) (s : σ)
    (hctx : ∀ s1, ctx.Done s1 = false)
    (hsend : ∀ m s1, (t.client.Send m s1).1 = none) :
    (Send t ctx subject message s).attempts = t.chatIDs.map (outbound subject message) ∧
    (Send t ctx subject message s).err = none := by
  have h := Send_append t ctx subject message s t.chatIDs [] (by simp)
    (fun p x q _ => ⟨hctx _, hsend _ _⟩)
  rw [h]
  simp [sendLoop]

end telegram

namespace telegram

open tgbotapi

/-- One iteration of the loop of `Send` whose check finds the context done. -/
theorem sendLoop_done {σ : Type} (ctx : context.Context σ) (client : BotAPI σ)
    (msg : MessageConfig) (x : Int) (rest : List Int) (s : σ) (h : ctx.Done s = true) :
    sendLoop ctx client msg (x :: rest) s = { attempts := [], err := ctx.Err s, final := s } := by
  simp [sendLoop, h]

/-- One iteration of the loop of `Send` whose send fails. -/
theorem sendLoop_fail {σ : Type} (ctx : context.Context σ) (client : BotAPI σ)
    (subject message : String) (x : Int) (rest : List Int) (s : σ) (cause : GoError)
    (hd : ctx.Done s = false)
    (hs : (client.Send (outbound subject message x) s).1 = some cause) :
    sendLoop ctx client (outbound subject message 0) (x :: rest) s =
      { attempts := [outbound subject message x]
        err := some (GoError.withStack (GoError.withMessage cause (failedToSend x)))
        final := (client.Send (outbound subject message x) s).2 } := by
  have hsend : client.Send { outbound subject message 0 with ChatID := x } s
      = (some cause, (client.Send (outbound subject message x) s).2) := by
    show client.Send (outbound subject message x) s = _
    rw [← hs]
  rw [sendLoop, hd]
  simp only [Bool.false_eq_true, if_false]
  rw [hsend]
  rfl

/-- C1. Full success: with a context that is never cancelled and a client
whose send always succeeds, `Send` performs exactly as many sends as the chat
id list has entries, the i-th send is addressed to the i-th entry (a
duplicated entry is sent to once per occurrence), every send carries the text
`subject ++ "\n" ++ message` with the HTML parse mode, and `Send` returns nil. -/
theorem Send_full_success {σ : Type} (t : Telegram σ) (ctx : context.Context σ)
    (subject message : String) (s : σ)
    (hctx : ∀ s1, ctx.Done s1 = false)
    (hsend : ∀ m s1, (t.client.Send m s1).1 = none) :
    (Send t ctx subject message s).attempts.length = t.chatIDs.length ∧
    (Send t ctx subject message s).attempts =
      t.chatIDs.map (fun chatID =>
        { ChatID := chatID, Text := subject ++ "\n" ++ message, ParseMode := "HTML" }) ∧
    (Send t ctx subject message s).err = none := by
  obtain ⟨ha, he⟩ := Send_all t ctx subject message s hctx hsend
  refine ⟨?_, ?_, he⟩
  · rw [ha, List.length_map]
  · rw [ha]; rfl

/-- Witness of C1: three entries, one of them twice. -/
theorem Send_full_success_witness :
    (Send { client := countingClient none, chatIDs := [7, 7, -3] } background
        "hi" "there" 0).attempts.length = 3 ∧
    (Send { client := countingClient none, chatIDs := [7, 7, -3] } background
        "hi" "there" 0).attempts =
      [{ ChatID := 7, Text := "hi\nthere", ParseMode := "HTML" },
       { ChatID := 7, Text := "hi\nthere", ParseMode := "HTML" },
       { ChatID := -3, Text := "hi\nthere", ParseMode := "HTML" }] ∧
    (Send { client := countingClient none, chatIDs := [7, 7, -3] } background
        "hi" "there" 0).err = none :=
  Send_full_success { client := countingClient none, chatIDs := [7, 7, -3] } background
    "hi" "there" 0 (fun _ => rfl) (fun _ _ => rfl)

/-- C2. Abort on failure: with a context that is never cancelled, when the
sends to the entries before index `j` succeed and the send to entry `j` fails
with `cause`, `Send` attempts exactly the entries `0..j` in order, attempts no
later entry, and returns the non-nil error that `errors.Wrapf` builds: a
`withStack` holding a `withMessage` whose cause is `cause` and whose message is
"failed to send message to Telegram chat " followed by the quoted entry `j`.
One `Unwrap` of it gives that `withMessage`, a second one gives `cause`;
`errors.Cause` of it is `errors.Cause` of `cause`; its text is the message, a
colon and the text of `cause`. The list is split as `pre ++ bad :: post`, with
`j` the length of `pre`. -/
theorem Send_abort_on_failure {σ : Type} (t : Telegram σ) (ctx : context.Context σ)
    (subject message : String) (s : σ)
    (pre : List Int) (bad : Int) (post : List Int) (cause : GoError)
    (hids : t.chatIDs = pre ++ bad :: post)
    (hctx : ∀ s1, ctx.Done s1 = false)
    (hok : ∀ p x q, pre = p ++ x :: q →
      (t.client.Send (outbound subject message x)
        (served t.client (p.map (outbound subject message)) s)).1 = none)
    (hbad : (t.client.Send (outbound subject message bad)
        (served t.client (pre.map (outbound subject message)) s)).1 = some cause) :
    (Send t ctx subject message s).attempts
      = (pre ++ [bad]).map (outbound subject message) ∧
    (Send t ctx subject message s).attempts.map (fun m => m.ChatID)
      = t.chatIDs.take (pre.length + 1) ∧
    (Send t ctx subject message s).err
      = some (GoError.withStack (GoError.withMessage cause
          ("failed to send message to Telegram chat \x27" ++ toString bad ++ "\x27"))) ∧
    (∃ e, (Send t ctx subject message s).err = some e ∧
      e.Unwrap = some (GoError.withMessage cause
          ("failed to send message to Telegram chat \x27" ++ toString bad ++ "\x27")) ∧
      e.Unwrap.bind GoError.Unwrap = some cause ∧
      e.Cause = cause.Cause ∧
      e.Error = "failed to send message to Telegram chat \x27" ++ toString bad ++ "\x27: "
        ++ cause.Error) := by
  have h := Send_append t ctx subject message s pre (bad :: post) hids
    (fun p x q hpq => ⟨hctx _, hok p x q hpq⟩)
  rw [sendLoop_fail ctx t.client subject message bad post _ cause (hctx _) hbad] at h
  rw [h]
  refine ⟨by simp, ?_, rfl, ⟨_, rfl, rfl, rfl, rfl, ?_⟩⟩
  · simp only [hids, List.map_append, List.map_map, List.map_cons, List.map_nil]
    have : (fun m : MessageConfig => m.ChatID) ∘ outbound subject message = id := rfl
    rw [this, List.map_id]
    simp [outbound, List.take_append_eq_append_take]
  · simp [GoError.Error, failedToSend, String.append_assoc]

end telegram

namespace telegram

open tgbotapi

/-- Witness of C2: of the entries 10, 20, 30 the send to 20 fails. -/
theorem Send_abort_on_failure_witness :
    (Send { client := countingClient (some 1), chatIDs := [10, 20, 30] } background
        "hi" "there" 0).attempts
      = [outbound "hi" "there" 10, outbound "hi" "there" 20] ∧
    (Send { client := countingClient (some 1), chatIDs := [10, 20, 30] } background
        "hi" "there" 0).err
      = some (GoError.withStack (GoError.withMessage (GoError.leaf "blocked")
          "failed to send message to Telegram chat \x2720\x27")) := by
  have h := Send_abort_on_failure
    { client := countingClient (some 1), chatIDs := [10, 20, 30] } background
    "hi" "there" 0 [10] 20 [30] (GoError.leaf "blocked") rfl (fun _ => rfl)
    (by
      intro p x q hpq
      cases p with
      | nil => rfl
      | cons a p => simp at hpq)
    rfl
  exact ⟨h.1, h.2.2.1⟩

/-- C3. Cancellation. First part: on a non-empty chat id list, when the
context is already done at the call, `Send` performs no send and returns
`ctx.Err()` as it is. Second part: when the checks before the entries of `pre`
find the context not done and the sends to them succeed, and the check before
the next entry finds the context done, then exactly the entries of `pre` were
sent to and `Send` returns `ctx.Err()` as it is at that check. -/
theorem Send_cancellation {σ : Type} (t : Telegram σ) (ctx : context.Context σ)
    (subject message : String) (s : σ) :
    (t.chatIDs ≠ [] → ctx.Done s = true →
      (Send t ctx subject message s).attempts = [] ∧
      (Send t ctx subject message s).err = ctx.Err s) ∧
    (∀ (pre : List Int) (next : Int) (post : List Int),
      t.chatIDs = pre ++ next :: post →
      (∀ p x q, pre = p ++ x :: q →
        ctx.Done (served t.client (p.map (outbound subject message)) s) = false ∧
        (t.client.Send (outbound subject message x)
          (served t.client (p.map (outbound subject message)) s)).1 = none) →
      ctx.Done (served t.client (pre.map (outbound subject message)) s) = true →
      (Send t ctx subject message s).attempts = pre.map (outbound subject message) ∧
      (Send t ctx subject message s).err
        = ctx.Err (served t.client (pre.map (outbound subject message)) s)) := by
  constructor
  · intro hne hdone
    rw [Send_eq_sendLoop]
    cases hc : t.chatIDs with
    | nil => exact absurd hc hne
    | cons x rest =>
      rw [sendLoop_done ctx t.client _ x rest s hdone]
      exact ⟨rfl, rfl⟩
  · intro pre next post hids hok hdone
    have h := Send_append t ctx subject message s pre (next :: post) hids hok
    rw [sendLoop_done ctx t.client _ next post _ hdone] at h
    rw [h]
    simp

/-- Witness of C3: the entries 10, 20, 30, once with a context cancelled before
the call and once with a context cancelled after the first send. -/
theorem Send_cancellation_witness :
    ((Send { client := countingClient none, chatIDs := [10, 20, 30] } (cancelledAfter 0)
        "hi" "there" 0).attempts = [] ∧
     (Send { client := countingClient none, chatIDs := [10, 20, 30] } (cancelledAfter 0)
        "hi" "there" 0).err = some (GoError.leaf "context canceled")) ∧
    ((Send { client := countingClient none, chatIDs := [10, 20, 30] } (cancelledAfter 1)
        "hi" "there" 0).attempts = [outbound "hi" "there" 10] ∧
     (Send { client := countingClient none, chatIDs := [10, 20, 30] } (cancelledAfter 1)
        "hi" "there" 0).err = some (GoError.leaf "context canceled")) := by
  refine ⟨?_, ?_⟩
  · exact (Send_cancellation { client := countingClient none, chatIDs := [10, 20, 30] }
      (cancelledAfter 0) "hi" "there" 0).1 (by decide) rfl
  · exact (Send_cancellation { client := countingClient none, chatIDs := [10, 20, 30] }
      (cancelledAfter 1) "hi" "there" 0).2 [10] 20 [30] rfl
      (by
        intro p x q hpq
        cases p with
        | nil => exact ⟨rfl, rfl⟩
        | cons a p => simp at hpq)
      rfl

/-- C10. Empty list and late cancellation. First part: on an empty chat id
list `Send` performs no send and returns nil, whatever the context reports,
also when it is done. Second part: the context is consulted only at the check
before each send, so when each of these checks finds it not done and every
send succeeds, `Send` has sent to every entry and returns nil, whatever the
context reports in the state after the last send. -/
theorem Send_empty_or_late_cancel {σ : Type} (t : Telegram σ) (ctx : context.Context σ)
    (subject message : String) (s : σ) :
    (t.chatIDs = [] →
      (Send t ctx subject message s).attempts = [] ∧
      (Send t ctx subject message s).err = none) ∧
    ((∀ p x q, t.chatIDs = p ++ x :: q →
        ctx.Done (served t.client (p.map (outbound subject message)) s) = false ∧
        (t.client.Send (outbound subject message x)
          (served t.client (p.map (outbound subject message)) s)).1 = none) →
      (Send t ctx subject message s).attempts = t.chatIDs.map (outbound subject message) ∧
      (Send t ctx subject message s).err = none ∧
      (Send t ctx subject message s).final
        = served t.client (t.chatIDs.map (outbound subject message)) s) := by
  constructor
  · intro hnil
    rw [Send_eq_sendLoop, hnil]
    exact ⟨rfl, rfl⟩
  · intro hok
    have h := Send_append t ctx subject message s t.chatIDs [] (by simp) hok
    rw [h]
    simp [sendLoop]

/-- Witness of C10: an empty list with a context that is done at the call, and
the entries 10, 20 with a context that is done once both sends are served. -/
theorem Send_empty_or_late_cancel_witness :
    ((cancelledAfter 0).Done 0 = true ∧
     (Send { client := countingClient none, chatIDs := [] } (cancelledAfter 0)
        "hi" "there" 0).attempts = [] ∧
     (Send { client := countingClient none, chatIDs := [] } (cancelledAfter 0)
        "hi" "there" 0).err = none) ∧
    ((cancelledAfter 2).Done
        (Send { client := countingClient none, chatIDs := [10, 20] } (cancelledAfter 2)
          "hi" "there" 0).final = true ∧
     (Send { client := countingClient none, chatIDs := [10, 20] } (cancelledAfter 2)
        "hi" "there" 0).attempts = [outbound "hi" "there" 10, outbound "hi" "there" 20] ∧
     (Send { client := countingClient none, chatIDs := [10, 20] } (cancelledAfter 2)
        "hi" "there" 0).err = none) := by
  refine ⟨⟨rfl, ?_⟩, ?_⟩
  · exact (Send_empty_or_late_cancel { client := countingClient none, chatIDs := [] }
      (cancelledAfter 0) "hi" "there" 0).1 rfl
  · have h := (Send_empty_or_late_cancel
      { client := countingClient none, chatIDs := [10, 20] }
      (cancelledAfter 2) "hi" "there" 0).2
      (by
        intro p x q hpq
        cases p with
        | nil => exact ⟨rfl, rfl⟩
        | cons a p =>
          cases p with
          | nil => exact ⟨rfl, rfl⟩
          | cons b p => simp at hpq)
    refine ⟨?_, h.1, h.2.1⟩
    rw [h.2.2]
    rfl

end telegram

namespace telegram

open tgbotapi

/-- Every message the loop of `Send` hands to the client has the text and the
parse mode of the variable `msg`, in any world. -/
theorem sendLoop_attempts_text {σ : Type} (ctx : context.Context σ) (client : BotAPI σ) :
    ∀ (ids : List Int) (msg : MessageConfig) (s : σ),
      ∀ m ∈ (sendLoop ctx client msg ids s).attempts,
        m.Text = msg.Text ∧ m.ParseMode = msg.ParseMode := by
  intro ids
  induction ids with
  | nil => intro msg s m hm; simp [sendLoop] at hm
  | cons a rest ih =>
    intro msg s m hm
    rw [sendLoop] at hm
    split at hm
    · simp at hm
    · dsimp only at hm
      split at hm
      · simp only [List.mem_singleton] at hm
        subst hm
        exact ⟨rfl, rfl⟩
      · simp only [List.mem_cons] at hm
        rcases hm with rfl | hm
        · exact ⟨rfl, rfl⟩
        · exact ih { msg with ChatID := a } _ m hm

/-- C9. Composition is deterministic and free of state: the text and parse mode
of every message that `Send` hands to the client are `subject ++ "\n" ++ message`
and HTML, whatever the client, the chat id list, the context and the world
state are; hence any two sends of two calls with the same subject and body (or
of one call) carry the same text and parse mode. -/
theorem Send_composition_deterministic {σ₁ σ₂ : Type}
    (t₁ : Telegram σ₁) (ctx₁ : context.Context σ₁) (s₁ : σ₁)
    (t₂ : Telegram σ₂) (ctx₂ : context.Context σ₂) (s₂ : σ₂)
    (subject message : String) :
    (∀ m ∈ (Send t₁ ctx₁ subject message s₁).attempts,
      m.Text = subject ++ "\n" ++ message ∧ m.ParseMode = "HTML") ∧
    (∀ m₁ ∈ (Send t₁ ctx₁ subject message s₁).attempts,
      ∀ m₂ ∈ (Send t₂ ctx₂ subject message s₂).attempts,
        m₁.Text = m₂.Text ∧ m₁.ParseMode = m₂.ParseMode) := by
  have h₁ := sendLoop_attempts_text ctx₁ t₁.client t₁.chatIDs (outbound subject message 0) s₁
  have h₂ := sendLoop_attempts_text ctx₂ t₂.client t₂.chatIDs (outbound subject message 0) s₂
  refine ⟨fun m hm => h₁ m hm, fun m₁ hm₁ m₂ hm₂ => ?_⟩
  obtain ⟨a₁, b₁⟩ := h₁ m₁ hm₁
  obtain ⟨a₂, b₂⟩ := h₂ m₂ hm₂
  exact ⟨a₁.trans a₂.symm, b₁.trans b₂.symm⟩

/-- Witness of C9: a call that sends to 1 and 2, and a call with another list,
another client (its first send fails) and another world state. -/
theorem Send_composition_deterministic_witness :
    outbound "hi" "there" 2 ∈
      (Send { client := countingClient none, chatIDs := [1, 2] } background
        "hi" "there" 0).attempts ∧
    outbound "hi" "there" 5 ∈
      (Send { client := countingClient (some 4), chatIDs := [5, 6] } (cancelledAfter 9)
        "hi" "there" 4).attempts ∧
    ((outbound "hi" "there" 2).Text = (outbound "hi" "there" 5).Text ∧
     (outbound "hi" "there" 2).ParseMode = (outbound "hi" "there" 5).ParseMode) := by
  have m₁ : outbound "hi" "there" 2 ∈
      (Send { client := countingClient none, chatIDs := [1, 2] } background
        "hi" "there" 0).attempts := by
    have e : (Send { client := countingClient none, chatIDs := [1, 2] } background
        "hi" "there" 0).attempts = [outbound "hi" "there" 1, outbound "hi" "there" 2] := rfl
    rw [e]
    exact List.mem_cons_of_mem _ (List.mem_singleton.mpr rfl)
  have m₂ : outbound "hi" "there" 5 ∈
      (Send { client := countingClient (some 4), chatIDs := [5, 6] } (cancelledAfter 9)
        "hi" "there" 4).attempts := by
    have e : (Send { client := countingClient (some 4), chatIDs := [5, 6] } (cancelledAfter 9)
        "hi" "there" 4).attempts = [outbound "hi" "there" 5] := rfl
    rw [e]
    exact List.mem_singleton.mpr rfl
  exact ⟨m₁, m₂,
    (Send_composition_deterministic
      { client := countingClient none, chatIDs := [1, 2] } background 0
      { client := countingClient (some 4), chatIDs := [5, 6] } (cancelledAfter 9) 4
      "hi" "there").2 _ m₁ _ m₂⟩

/-- C7. `AddReceivers` appends: afterwards the chat id list is the earlier list
followed by the arguments in argument order, nothing is dropped or
deduplicated (the length grows by the number of arguments, the earlier entries
stay in place); whenever the bot API hands out a client, `New` returns an
instance with that client and the empty list, so a freshly constructed
instance has the empty list; and a following `Send` whose sends all succeed
addresses the earlier entries and then the arguments, in that order. -/
theorem AddReceivers_appends {σ : Type} (t : Telegram σ) (chatIDs : List Int) :
    (AddReceivers t chatIDs).chatIDs = t.chatIDs ++ chatIDs ∧
    (AddReceivers t chatIDs).chatIDs.length = t.chatIDs.length + chatIDs.length ∧
    (AddReceivers t chatIDs).chatIDs.take t.chatIDs.length = t.chatIDs ∧
    (AddReceivers t chatIDs).chatIDs.drop t.chatIDs.length = chatIDs ∧
    (∀ (NewBotAPI : String → Except GoError (BotAPI σ)) (apiToken : String)
        (client : BotAPI σ),
      NewBotAPI apiToken = .ok client →
      New NewBotAPI apiToken = .ok { client := client, chatIDs := [] }) ∧
    (∀ (NewBotAPI : String → Except GoError (BotAPI σ)) (apiToken : String) (t₀ : Telegram σ),
      New NewBotAPI apiToken = .ok t₀ → t₀.chatIDs = []) ∧
    (∀ (ctx : context.Context σ) (subject message : String) (s : σ),
      (∀ s₁, ctx.Done s₁ = false) →
      (∀ m s₁, ((AddReceivers t chatIDs).client.Send m s₁).1 = none) →
      (Send (AddReceivers t chatIDs) ctx subject message s).attempts
        = (t.chatIDs ++ chatIDs).map (outbound subject message) ∧
      (Send (AddReceivers t chatIDs) ctx subject message s).attempts.map (fun m => m.ChatID)
        = t.chatIDs ++ chatIDs ∧
      (Send (AddReceivers t chatIDs) ctx subject message s).err = none) := by
  refine ⟨rfl, by simp [AddReceivers], by simp [AddReceivers], by simp [AddReceivers],
    ?_, ?_, ?_⟩
  · intro NewBotAPI apiToken client h
    unfold New
    rw [h]
  · intro NewBotAPI apiToken t₀ h
    unfold New at h
    split at h
    · cases h
    · cases h; rfl
  · intro ctx subject message s hctx hsend
    obtain ⟨ha, he⟩ := Send_all (AddReceivers t chatIDs) ctx subject message s hctx hsend
    refine ⟨ha, ?_, he⟩
    rw [ha, List.map_map]
    have : (fun m : MessageConfig => m.ChatID) ∘ outbound subject message = id := rfl
    rw [this, List.map_id]
    rfl

/-- Witness of C7: the arguments 2, 3 added to the list 1, 2, an instance
freshly constructed from a bot API that hands out a client, and a send after
the addition. -/
theorem AddReceivers_appends_witness :
    (AddReceivers { client := countingClient none, chatIDs := [1, 2] } [2, 3]).chatIDs
      = [1, 2, 2, 3] ∧
    New (fun _ => .ok (countingClient none)) "token"
      = .ok { client := countingClient none, chatIDs := [] } ∧
    ({ client := countingClient none, chatIDs := [] } : Telegram Nat).chatIDs = [] ∧
    (Send (AddReceivers { client := countingClient none, chatIDs := [1, 2] } [2, 3]) background
        "hi" "there" 0).attempts.map (fun m => m.ChatID) = [1, 2, 2, 3] ∧
    (Send (AddReceivers { client := countingClient none, chatIDs := [1, 2] } [2, 3]) background
        "hi" "there" 0).err = none := by
  have h := AddReceivers_appends { client := countingClient none, chatIDs := [1, 2] } [2, 3]
  have hs := h.2.2.2.2.2.2 background "hi" "there" 0 (fun _ => rfl) (fun _ _ => rfl)
  have hnew := h.2.2.2.2.1 (fun _ => .ok (countingClient none)) "token"
    (countingClient none) rfl
  exact ⟨h.1, hnew,
    h.2.2.2.2.2.1 (fun _ => .ok (countingClient none)) "token"
      { client := countingClient none, chatIDs := [] } hnew,
    hs.2.1, hs.2.2⟩

end telegram

/-! ## Lemmas on `GetChatId` -/

namespace telegram

open tgbotapi

/-- The inner loop runs to its end exactly when no update of the batch is
authored by `username`. -/
theorem scanUpdates_eq_none (username : String) :
    ∀ updates : List Update,
      scanUpdates username updates = none ↔ ∀ u ∈ updates, authoredBy username u = false := by
  intro updates
  induction updates with
  | nil => simp [scanUpdates]
  | cons u rest ih =>
    rcases u with ⟨_ | ⟨_ | sender⟩⟩
    · simp [scanUpdates, authoredBy, ih]
    · simp [scanUpdates, authoredBy, ih]
    · by_cases hname : sender.UserName = username
      · simp [scanUpdates, authoredBy, hname]
      · simp [scanUpdates, authoredBy, hname, ih]

/-- When the inner loop returns an id, it is the id of the sender of the first
update of the batch that is authored by `username`. -/
theorem scanUpdates_eq_some (username : String) :
    ∀ (updates : List Update) (id : Int), scanUpdates username updates = some id →
      ∃ before first after sender, updates = before ++ first :: after ∧
        (∀ u ∈ before, authoredBy username u = false) ∧
        first.Message = some { From := some sender } ∧
        sender.UserName = username ∧ sender.ID = id := by
  intro updates
  induction updates with
  | nil => intro id h; simp [scanUpdates] at h
  | cons u rest ih =>
    intro id h
    have step : scanUpdates username rest = some id →
        authoredBy username u = false →
        ∃ before first after sender, u :: rest = before ++ first :: after ∧
          (∀ v ∈ before, authoredBy username v = false) ∧
          first.Message = some { From := some sender } ∧
          sender.UserName = username ∧ sender.ID = id := by
      intro hrest hu
      obtain ⟨before, first, after, sender, hsplit, hbefore, hfirst, hname, hid⟩ := ih id hrest
      refine ⟨u :: before, first, after, sender, by rw [hsplit]; rfl, ?_, hfirst, hname, hid⟩
      intro v hv
      rcases List.mem_cons.mp hv with rfl | hv
      · exact hu
      · exact hbefore v hv
    rcases u with ⟨_ | ⟨_ | sender⟩⟩
    · exact step (by simpa [scanUpdates] using h) (by simp [authoredBy])
    · exact step (by simpa [scanUpdates] using h) (by simp [authoredBy])
    · by_cases hname : sender.UserName = username
      · refine ⟨[], _, rest, sender, rfl, by simp, rfl, hname, ?_⟩
        simpa [scanUpdates, hname] using h
      · exact step (by simpa [scanUpdates, hname] using h) (by simp [authoredBy, hname])

/-- The loop of `GetChatId` after a failed fetch. -/
theorem GetChatId_tick_error (username : String) (timeout : time.Duration) (err : GoError)
    (rest : List SelectEvent) :
    GetChatId username timeout (SelectEvent.tick (.error err) :: rest) =
      { fetches := updateConfig :: (GetChatId username timeout rest).fetches
        returned := (GetChatId username timeout rest).returned } := by
  simp [GetChatId]

/-- The loop of `GetChatId` after a fetched batch without a match. -/
theorem GetChatId_tick_none (username : String) (timeout : time.Duration)
    (updates : List Update) (rest : List SelectEvent)
    (h : scanUpdates username updates = none) :
    GetChatId username timeout (SelectEvent.tick (.ok updates) :: rest) =
      { fetches := updateConfig :: (GetChatId username timeout rest).fetches
        returned := (GetChatId username timeout rest).returned } := by
  simp [GetChatId, h]

/-- The loop of `GetChatId` after a fetched batch with a match. -/
theorem GetChatId_tick_some (username : String) (timeout : time.Duration)
    (updates : List Update) (rest : List SelectEvent) (id : Int)
    (h : scanUpdates username updates = some id) :
    GetChatId username timeout (SelectEvent.tick (.ok updates) :: rest) =
      { fetches := [updateConfig], returned := some (id, none) } := by
  simp [GetChatId, h]

/-- When the polled feed has an update authored by `username`, `GetChatId`
returns the id of the sender of the first such update, and nil. -/
theorem GetChatId_of_polled (username : String) (timeout : time.Duration) :
    ∀ events : List SelectEvent,
      (∃ u ∈ polled events, authoredBy username u = true) →
      ∃ before first after sender, polled events = before ++ first :: after ∧
        (∀ v ∈ before, authoredBy username v = false) ∧
        first.Message = some { From := some sender } ∧
        sender.UserName = username ∧
        (GetChatId username timeout events).returned = some (sender.ID, none) := by
  intro events
  induction events with
  | nil => rintro ⟨u, hu, _⟩; simp [polled] at hu
  | cons ev rest ih =>
    rintro ⟨u, hu, hmatch⟩
    cases ev with
    | interrupt => simp [polled] at hu
    | tick fetched =>
      cases fetched with
      | error err =>
        rw [GetChatId_tick_error]
        exact ih ⟨u, by simpa [polled] using hu, hmatch⟩
      | ok updates =>
        cases hscan : scanUpdates username updates with
        | some id =>
          obtain ⟨before, first, after, sender, hsplit, hbefore, hfirst, hname, hid⟩ :=
            scanUpdates_eq_some username updates id hscan
          refine ⟨before, first, after ++ polled rest, sender, ?_, hbefore, hfirst, hname, ?_⟩
          · simp [polled, hsplit]
          · rw [GetChatId_tick_some username timeout updates rest id hscan, hid]
        | none =>
          have hnone := (scanUpdates_eq_none username updates).mp hscan
          have hu' : u ∈ polled rest := by
            simp only [polled, List.mem_append] at hu
            rcases hu with hu | hu
            · rw [hnone u hu] at hmatch; cases hmatch
            · exact hu
          obtain ⟨before, first, after, sender, hsplit, hbefore, hfirst, hname, hret⟩ :=
            ih ⟨u, hu', hmatch⟩
          refine ⟨updates ++ before, first, after, sender, ?_, ?_, hfirst, hname, ?_⟩
          · simp [polled, hsplit]
          · intro v hv
            rcases List.mem_append.mp hv with hv | hv
            · exact hnone v hv
            · exact hbefore v hv
          · rw [GetChatId_tick_none username timeout updates rest hscan]
            exact hret

/-- Every fetch of `GetChatId` is made with the same argument. -/
theorem GetChatId_fetches (username : String) (timeout : time.Duration) :
    ∀ events : List SelectEvent,
      (GetChatId username timeout events).fetches
        = List.replicate (GetChatId username timeout events).fetches.length updateConfig := by
  intro events
  induction events with
  | nil => simp [GetChatId]
  | cons ev rest ih =>
    cases ev with
    | interrupt => simp [GetChatId]
    | tick fetched =>
      cases fetched with
      | error err =>
        rw [GetChatId_tick_error]
        simp only [List.length_cons, List.replicate_succ]
        rw [← ih]
      | ok updates =>
        cases hscan : scanUpdates username updates with
        | some id => rw [GetChatId_tick_some username timeout updates rest id hscan]; rfl
        | none =>
          rw [GetChatId_tick_none username timeout updates rest hscan]
          simp only [List.length_cons, List.replicate_succ]
          rw [← ih]

end telegram

/-! ## Properties of `GetChatId` -/

namespace telegram

open tgbotapi

/-- C4. Match: when some batch polled before the deadline is observed has an
update whose message and sender are present and whose sender has exactly the
user name `username`, `GetChatId` returns the numeric id of the sender of the
first such update of the feed (earliest batch, earliest position in it) and
nil; the updates before it, none of them authored by `username`, and the
updates after it do not change the result. -/
theorem GetChatId_first_match (username : String) (timeout : time.Duration)
    (events : List SelectEvent)
    (h : ∃ u ∈ polled events, authoredBy username u = true) :
    ∃ before first after sender, polled events = before ++ first :: after ∧
      (∀ v ∈ before, authoredBy username v = false) ∧
      first.Message = some { From := some sender } ∧
      sender.UserName = username ∧
      (GetChatId username timeout events).returned = some (sender.ID, none) :=
  GetChatId_of_polled username timeout events h

/-- Witness of C4: a failed fetch, a batch with an update without message, one
without sender and one of another user, then a batch with two updates of
"bob", then the deadline. -/
theorem GetChatId_first_match_witness :
    (GetChatId "bob" (10 * time.Second)
      [SelectEvent.tick (.error (GoError.leaf "net")),
       SelectEvent.tick (.ok [{ Message := none }, { Message := some { From := none } },
         { Message := some { From := some { ID := 5, UserName := "eve" } } }]),
       SelectEvent.tick (.ok [{ Message := some { From := some { ID := 42, UserName := "bob" } } },
         { Message := some { From := some { ID := 43, UserName := "bob" } } }]),
       SelectEvent.interrupt]).returned = some (42, none) ∧
    ∃ before first after sender,
      polled
        [SelectEvent.tick (.error (GoError.leaf "net")),
         SelectEvent.tick (.ok [{ Message := none }, { Message := some { From := none } },
           { Message := some { From := some { ID := 5, UserName := "eve" } } }]),
         SelectEvent.tick (.ok [{ Message := some { From := some { ID := 42, UserName := "bob" } } },
           { Message := some { From := some { ID := 43, UserName := "bob" } } }]),
         SelectEvent.interrupt] = before ++ first :: after ∧
      (∀ v ∈ before, authoredBy "bob" v = false) ∧
      first.Message = some { From := some sender } ∧
      sender.UserName = "bob" ∧
      (GetChatId "bob" (10 * time.Second)
        [SelectEvent.tick (.error (GoError.leaf "net")),
         SelectEvent.tick (.ok [{ Message := none }, { Message := some { From := none } },
           { Message := some { From := some { ID := 5, UserName := "eve" } } }]),
         SelectEvent.tick (.ok [{ Message := some { From := some { ID := 42, UserName := "bob" } } },
           { Message := some { From := some { ID := 43, UserName := "bob" } } }]),
         SelectEvent.interrupt]).returned = some (sender.ID, none) :=
  ⟨by decide,
   GetChatId_first_match "bob" (10 * time.Second) _
    ⟨{ Message := some { From := some { ID := 42, UserName := "bob" } } },
      by simp [polled], by decide⟩⟩

/-- C5, as stated, fails: on a feed whose first update authored by "bob" has a
sender with the numeric id -1, `GetChatId` returns -1 with a nil error, and no
deadline is among the events. -/
theorem GetChatId_minus_one_without_deadline :
    (GetChatId "bob" (10 * time.Second)
      [SelectEvent.tick
        (.ok [{ Message := some { From := some { ID := -1, UserName := "bob" } } }])]).returned
      = some (-1, none) ∧
    SelectEvent.interrupt ∉
      [SelectEvent.tick
        (.ok [{ Message := some { From := some { ID := -1, UserName := "bob" } } }])] := by
  refine ⟨by decide, ?_⟩
  simp

/-- C5, amended. Timeout: when no update polled before the deadline is authored
by `username` and the deadline is observed, `GetChatId` returns -1 with the
error "timed out", having made one fetch per tick before the deadline and none
after it. Conversely every result is either the id of the sender of the first
polled update authored by `username`, with a nil error, or -1 with the error
"timed out" on the observed deadline: a non-nil error is returned on no other
path (and -1 on another path only as the id of that sender). -/
theorem GetChatId_timeout_or_match (username : String) (timeout : time.Duration) :
    (∀ (pre rest : List SelectEvent),
      SelectEvent.interrupt ∉ pre →
      (∀ u ∈ polled pre, authoredBy username u = false) →
      GetChatId username timeout (pre ++ SelectEvent.interrupt :: rest) =
        { fetches := List.replicate pre.length updateConfig
          returned := some (-1, some (errors.New "timed out")) }) ∧
    (∀ (events : List SelectEvent) (v : Int) (e : Option GoError),
      (GetChatId username timeout events).returned = some (v, e) →
      (e = none ∧
        ∃ before first after sender, polled events = before ++ first :: after ∧
          (∀ u ∈ before, authoredBy username u = false) ∧
          first.Message = some { From := some sender } ∧
          sender.UserName = username ∧ v = sender.ID) ∨
      (v = -1 ∧ e = some (errors.New "timed out") ∧
        ∃ pre rest, events = pre ++ SelectEvent.interrupt :: rest ∧
          SelectEvent.interrupt ∉ pre ∧
          ∀ u ∈ polled pre, authoredBy username u = false)) := by
  constructor
  · intro pre rest
    induction pre with
    | nil => intro _ _; simp [GetChatId]
    | cons ev pre ih =>
      intro hno hfeed
      have hno' : SelectEvent.interrupt ∉ pre := fun hmem => hno (List.mem_cons_of_mem _ hmem)
      cases ev with
      | interrupt => exact absurd (List.mem_cons_self _ _) hno
      | tick fetched =>
        cases fetched with
        | error err =>
          rw [List.cons_append, GetChatId_tick_error, ih hno' (by simpa [polled] using hfeed)]
          rfl
        | ok updates =>
          have hscan : scanUpdates username updates = none :=
            (scanUpdates_eq_none username updates).mpr
              (fun u hu => hfeed u (by simp [polled, hu]))
          rw [List.cons_append, GetChatId_tick_none username timeout updates _ hscan,
            ih hno' (fun u hu => hfeed u (by simp [polled, hu]))]
          rfl
  · intro events
    induction events with
    | nil => intro v e h; simp [GetChatId] at h
    | cons ev rest ih =>
      intro v e h
      have lift : ∀ (skipped : List Update),
          (∀ u ∈ skipped, authoredBy username u = false) →
          polled (ev :: rest) = skipped ++ polled rest →
          polled [ev] = skipped →
          ev ≠ SelectEvent.interrupt →
          (GetChatId username timeout rest).returned = some (v, e) →
          (e = none ∧
            ∃ before first after sender, polled (ev :: rest) = before ++ first :: after ∧
              (∀ u ∈ before, authoredBy username u = false) ∧
              first.Message = some { From := some sender } ∧
              sender.UserName = username ∧ v = sender.ID) ∨
          (v = -1 ∧ e = some (errors.New "timed out") ∧
            ∃ pre rest', ev :: rest = pre ++ SelectEvent.interrupt :: rest' ∧
              SelectEvent.interrupt ∉ pre ∧
              ∀ u ∈ polled pre, authoredBy username u = false) := by
        intro skipped hskipped hpolled hone hev hret
        rcases ih v e hret with
          ⟨he, before, first, after, sender, hsplit, hbefore, hfirst, hname, hv⟩ |
          ⟨hv, he, pre, rest', hsplit, hno, hfeed⟩
        · left
          refine ⟨he, skipped ++ before, first, after, sender, ?_, ?_, hfirst, hname, hv⟩
          · rw [hpolled, hsplit, List.append_assoc]
          · intro u hu
            rcases List.mem_append.mp hu with hu | hu
            · exact hskipped u hu
            · exact hbefore u hu
        · right
          refine ⟨hv, he, ev :: pre, rest', by rw [hsplit]; rfl, ?_, ?_⟩
          · intro hmem
            rcases List.mem_cons.mp hmem with heq | hmem
            · exact hev heq.symm
            · exact hno hmem
          · intro u hu
            have hcons : polled (ev :: pre) = skipped ++ polled pre := by
              rw [← hone]
              cases ev with
              | interrupt => exact absurd rfl hev
              | tick fetched => cases fetched <;> simp [polled]
            rw [hcons] at hu
            rcases List.mem_append.mp hu with hu | hu
            · exact hskipped u hu
            · exact hfeed u hu
      cases ev with
      | interrupt =>
        right
        simp only [GetChatId, Option.some.injEq, Prod.mk.injEq] at h
        exact ⟨h.1.symm, h.2.symm, [], rest, rfl, by simp, by simp [polled]⟩
      | tick fetched =>
        cases fetched with
        | error err =>
          rw [GetChatId_tick_error] at h
          exact lift [] (by simp) (by simp [polled]) (by simp [polled]) (by simp) h
        | ok updates =>
          cases hscan : scanUpdates username updates with
          | some id =>
            rw [GetChatId_tick_some username timeout updates rest id hscan] at h
            simp only [Option.some.injEq, Prod.mk.injEq] at h
            obtain ⟨before, first, after, sender, hsplit, hbefore, hfirst, hname, hid⟩ :=
              scanUpdates_eq_some username updates id hscan
            left
            refine ⟨h.2.symm, before, first, after ++ polled rest, sender, ?_, hbefore, hfirst,
              hname, ?_⟩
            · simp [polled, hsplit]
            · rw [hid]; exact h.1.symm
          | none =>
            rw [GetChatId_tick_none username timeout updates rest hscan] at h
            exact lift updates ((scanUpdates_eq_none username updates).mp hscan)
              (by simp [polled]) (by simp [polled]) (by simp) h

end telegram

namespace telegram

open tgbotapi

/-- Witness of C5, amended: a failed fetch and a batch of another user before
the deadline, with a batch of "bob" after it; and a result with a nil error. -/
theorem GetChatId_timeout_or_match_witness :
    GetChatId "bob" (10 * time.Second)
      ([SelectEvent.tick (.error (GoError.leaf "net")),
        SelectEvent.tick (.ok [{ Message := some { From := some { ID := 5, UserName := "eve" } } }])]
        ++ SelectEvent.interrupt ::
          [SelectEvent.tick
            (.ok [{ Message := some { From := some { ID := 42, UserName := "bob" } } }])]) =
      { fetches := List.replicate 2 updateConfig
        returned := some (-1, some (errors.New "timed out")) } ∧
    (((none : Option GoError) = none ∧
      ∃ before first after sender,
        polled [SelectEvent.tick
          (.ok [{ Message := some { From := some { ID := 42, UserName := "bob" } } }])]
          = before ++ first :: after ∧
        (∀ u ∈ before, authoredBy "bob" u = false) ∧
        first.Message = some { From := some sender } ∧
        sender.UserName = "bob" ∧ (42 : Int) = sender.ID) ∨
     ((42 : Int) = -1 ∧ (none : Option GoError) = some (errors.New "timed out") ∧
      ∃ pre rest,
        [SelectEvent.tick
          (.ok [{ Message := some { From := some { ID := 42, UserName := "bob" } } }])]
          = pre ++ SelectEvent.interrupt :: rest ∧
        SelectEvent.interrupt ∉ pre ∧
        ∀ u ∈ polled pre, authoredBy "bob" u = false)) :=
  ⟨(GetChatId_timeout_or_match "bob" (10 * time.Second)).1
      [SelectEvent.tick (.error (GoError.leaf "net")),
        SelectEvent.tick (.ok [{ Message := some { From := some { ID := 5, UserName := "eve" } } }])]
      [SelectEvent.tick
        (.ok [{ Message := some { From := some { ID := 42, UserName := "bob" } } }])]
      (by simp) (by decide),
   (GetChatId_timeout_or_match "bob" (10 * time.Second)).2
      [SelectEvent.tick
        (.ok [{ Message := some { From := some { ID := 42, UserName := "bob" } } }])]
      42 none (by decide)⟩

/-- C6. Fetch errors are tolerated: a failed fetch is not surfaced and never
ends the loop, which goes on with the next event; and on every list of events
`GetChatId` makes the same fetches and returns the same result as on the list
in which every failed fetch is replaced by a successful fetch of an empty
batch. -/
theorem GetChatId_fetch_error_tolerance (username : String) (timeout : time.Duration)
    (events : List SelectEvent) :
    GetChatId username timeout events = GetChatId username timeout (events.map swallow) ∧
    (∀ (err : GoError) (rest : List SelectEvent),
      (GetChatId username timeout (SelectEvent.tick (.error err) :: rest)).returned
        = (GetChatId username timeout rest).returned) := by
  constructor
  · induction events with
    | nil => rfl
    | cons ev rest ih =>
      cases ev with
      | interrupt => simp [GetChatId, swallow]
      | tick fetched =>
        cases fetched with
        | error err =>
          rw [List.map_cons, swallow, GetChatId_tick_error,
            GetChatId_tick_none username timeout [] _ rfl, ih]
        | ok updates =>
          cases hscan : scanUpdates username updates with
          | some id =>
            rw [List.map_cons, swallow, GetChatId_tick_some username timeout updates _ id hscan,
              GetChatId_tick_some username timeout updates _ id hscan]
          | none =>
            rw [List.map_cons, swallow, GetChatId_tick_none username timeout updates _ hscan,
              GetChatId_tick_none username timeout updates _ hscan, ih]
  · intro err rest
    rw [GetChatId_tick_error]

/-- C8, on the code: every fetch of `GetChatId` is made with `Timeout` equal to
500000000, whatever the caller's timeout; the bot API reads it as seconds, so
the fetch is asked to wait 500000000 seconds, which is not half a second and
is longer than the tick period of 2 seconds. -/
theorem GetChatId_fetch_timeout (username : String) (timeout : time.Duration)
    (events : List SelectEvent) :
    (GetChatId username timeout events).fetches
      = List.replicate (GetChatId username timeout events).fetches.length
          { Timeout := 500000000 } ∧
    UpdateConfig.wait { Timeout := 500000000 } = 500000000 * time.Second ∧
    UpdateConfig.wait { Timeout := 500000000 } ≠ 500 * time.Millisecond ∧
    tickPeriod = 2 * time.Second ∧
    tickPeriod < UpdateConfig.wait { Timeout := 500000000 } := by
  have hcfg : updateConfig = { Timeout := 500000000 } := by decide
  refine ⟨?_, rfl, by decide, by decide, by decide⟩
  rw [← hcfg]
  exact GetChatId_fetches username timeout events

end telegram
